import Mathlib

/-!
Verification of the collaborative-editing relay server shipped with the
screenplay editor (the `server-with-persistence` entry point).  The server
multiplexes WebSocket connections per document name, rebroadcasts Yjs sync
and awareness messages, persists documents to LevelDB (Tier A) on every
change and backs them up to Firebase Realtime Database (Tier B) on a
debounced schedule.

The development below is a shallow embedding of the server's data model and
operations: JS `Map`s become association lists with JS `Map` semantics
(insertion order, unique keys), timestamps become naturals, opaque Yjs
update blobs become `List Nat`, and the asynchronous parts
(`getOrCreateDocument`, `processBackupQueue`) become small-step relations
whose atomic steps are the synchronous segments between `await` points,
matching the JS run-to-completion execution model.
-/

/-! ## Association-list maps with JS `Map` semantics -/

def mget {K α : Type} [DecidableEq K] : List (K × α) → K → Option α
  | [], _ => none
  | p :: rest, k => if p.1 = k then some p.2 else mget rest k

def mset {K α : Type} [DecidableEq K] : List (K × α) → K → α → List (K × α)
  | [], k, v => [(k, v)]
  | p :: rest, k, v => if p.1 = k then (k, v) :: rest else p :: mset rest k v

def mdel {K α : Type} [DecidableEq K] : List (K × α) → K → List (K × α)
  | [], _ => []
  | p :: rest, k => if p.1 = k then mdel rest k else p :: mdel rest k

/-! ## Wire-protocol discriminants (source: `messageSync`, `messageAwareness`) -/

def messageSync : Nat := 0

def messageAwareness : Nat := 1

/-! ## Update fan-out (source: `messageListener` registered in `setupWSConnection`)

Every connection registers its own `messageListener` on the shared Y.Doc:

    const messageListener = (update, origin) => { ...
      doc.conns.forEach((_, c) => {
        if (c !== conn && c.readyState === c.OPEN) { c.send(message, ...) } }) }
    doc.on('update', messageListener)

When an applied change fires the doc's `update` event, *all* registered
listeners run; the listener owned by connection `l` sends the encoded update
to every open connection `c ≠ l`.  Connections are modelled by `Nat` ids,
all assumed open. -/

def messageListenerSends (conns : List Nat) (listenerConn : Nat) : List Nat :=
  conns.filter (fun c => c != listenerConn)

def broadcastOnUpdate (conns : List Nat) : List (Nat × Nat) :=
  (conns.map (fun l => (messageListenerSends conns l).map (fun c => (c, l)))).flatten

def copiesReceived (conns : List Nat) (c : Nat) : Nat :=
  ((broadcastOnUpdate conns).filter (fun p => p.1 == c)).length

/-! ## Connection close handler (source: `conn.on('close', ...)`)

    doc.conns.delete(conn)
    doc.off('update', messageListener)
    awareness.off('update', awarenessChangeHandler)
    const connControlledIDs = doc.conns.get(conn)
    if (connControlledIDs) {
      awareness.removeAwarenessStates(Array.from(connControlledIDs), null)
    }

`doc.conns` maps a connection id to the set of awareness clientIDs it
controls; the awareness table maps clientIDs to their state (`none` is a
tombstone).  `removeAwarenessStates` is the y-protocols operation that
tombstones each listed clientID. -/

structure DocConnState where
  conns : List (Nat × List Nat)
  awareness : List (Nat × Option (List Nat))
deriving DecidableEq

def removeAwarenessStates (clients : List Nat) (aw : List (Nat × Option (List Nat))) :
    List (Nat × Option (List Nat)) :=
  aw.map (fun p => if clients.contains p.1 then (p.1, none) else p)

def closeHandler (conn : Nat) (s : DocConnState) : DocConnState × List Nat :=
  let conns1 := mdel s.conns conn
  match mget conns1 conn with
  | some ids => (⟨conns1, removeAwarenessStates ids s.awareness⟩, ids)
  | none => (⟨conns1, s.awareness⟩, [])

/-! ## Firebase backup manager (source: `FirebaseBackupManager`)

`docMetadata` is the module-level metadata map; `fireStore` models the
Firebase Realtime Database contents under `yjs-documents/<name>` — a JS
`set()` on that path replaces whatever record was stored there.
`backupDocument` takes the write outcome (`writeOk`) of the awaited
`docRef.set` as a parameter; on failure the catch block only logs. -/

structure DocMeta where
  created : Nat
  lastModified : Nat
  version : Nat
deriving DecidableEq

structure FireRecord where
  content : List Nat
  metadata : DocMeta
  timestamp : Nat
deriving DecidableEq

structure BackupState where
  docMetadata : List (String × DocMeta)
  fireStore : List (String × FireRecord)
deriving DecidableEq

def backupDocument (dbConfigured writeOk : Bool) (now : Nat) (docName : String)
    (content : List Nat) (s : BackupState) : BackupState :=
  if !dbConfigured then s
  else
    let md0 := (mget s.docMetadata docName).getD ⟨now, now, 1⟩
    let md : DocMeta := ⟨md0.created, now, md0.version + 1⟩
    let s1 : BackupState := ⟨mset s.docMetadata docName md, s.fireStore⟩
    if writeOk then ⟨s1.docMetadata, mset s1.fireStore docName ⟨content, md, now⟩⟩
    else s1

def restoreDocument (dbConfigured readOk : Bool) (docName : String) (s : BackupState) :
    Option (List Nat) × BackupState :=
  if !dbConfigured then (none, s)
  else if !readOk then (none, s)
  else
    match mget s.fireStore docName with
    | some rec => (some rec.content, ⟨mset s.docMetadata docName rec.metadata, s.fireStore⟩)
    | none => (none, s)

/-- The version the in-memory metadata map currently holds for a document;
a missing entry behaves like version 1 because `backupDocument` defaults the
metadata to `{version: 1}` before incrementing. -/
def curVer (s : BackupState) (n : String) : Nat :=
  ((mget s.docMetadata n).map DocMeta.version).getD 1

/-- One Tier B backup attempt: outcome of the remote write, wall-clock time,
and the document content captured by `Y.encodeStateAsUpdate` at write time. -/
structure Attempt where
  writeOk : Bool
  now : Nat
  content : List Nat

def runBackups (n : String) : BackupState → List Attempt → BackupState
  | s, [] => s
  | s, a :: as => runBackups n (backupDocument true a.writeOk a.now n a.content s) as

/-- Versions carried by the records actually written to Tier B over a run of
backup attempts, in write order. -/
def writtenVersions (n : String) : BackupState → List Attempt → List Nat
  | _, [] => []
  | s, a :: as =>
      (if a.writeOk then [curVer s n + 1] else [])
        ++ writtenVersions n (backupDocument true a.writeOk a.now n a.content s) as

/-! ## Per-document backup debounce (source: `scheduleFirebaseBackup` closure)

    let backupTimer = null
    const scheduleFirebaseBackup = () => {
      if (backupTimer) clearTimeout(backupTimer)
      backupTimer = setTimeout(() => { firebaseBackup.scheduleBackup(docName) },
                               FIREBASE_BACKUP_INTERVAL)
    }
    ydoc.on('update', (update, origin) => { ... scheduleFirebaseBackup() })

`backupTimer` holds the deadline of the single pending timer; `armedCount`
counts `setTimeout` calls; `docContent` abstracts the document state as the
number of content changes applied; a timer that fires runs
`scheduleBackup → processBackupQueue → backupDocument`, which reads the
document state current at fire time. -/

structure SchedulerState where
  backupTimer : Option Nat
  armedCount : Nat
  docContent : Nat
  writes : List (Nat × Nat)
deriving DecidableEq

def scheduleFirebaseBackup (interval now : Nat) (s : SchedulerState) : SchedulerState :=
  ⟨some (now + interval), s.armedCount + 1, s.docContent, s.writes⟩

def onUpdate (interval now : Nat) (s : SchedulerState) : SchedulerState :=
  scheduleFirebaseBackup interval now ⟨s.backupTimer, s.armedCount, s.docContent + 1, s.writes⟩

def fireTimer (now : Nat) (s : SchedulerState) : SchedulerState :=
  match s.backupTimer with
  | some t =>
      if t = now then ⟨none, s.armedCount, s.docContent, s.writes ++ [(now, s.docContent)]⟩
      else s
  | none => s

inductive SEvent where
  | change
  | fire
deriving DecidableEq

def runTimeline (interval : Nat) : SchedulerState → List (Nat × SEvent) → SchedulerState
  | s, [] => s
  | s, (t, SEvent.change) :: evs => runTimeline interval (onUpdate interval t s) evs
  | s, (t, SEvent.fire) :: evs => runTimeline interval (fireTimer t s) evs

def schedInit : SchedulerState := ⟨none, 0, 0, []⟩

/-- The scenario timeline of claim C6: five content changes at `t1 < ... < t5`,
with the wall clock then reaching every deadline that was ever armed
(`setTimeout` callbacks whose timer was cleared never run; `fireTimer` makes a
cleared deadline a no-op). -/
def fiveChangeTimeline (t1 t2 t3 t4 t5 : Nat) : List (Nat × SEvent) :=
  [(t1, SEvent.change), (t2, SEvent.change), (t3, SEvent.change), (t4, SEvent.change),
   (t5, SEvent.change),
   (t1 + 30000, SEvent.fire), (t2 + 30000, SEvent.fire), (t3 + 30000, SEvent.fire),
   (t4 + 30000, SEvent.fire), (t5 + 30000, SEvent.fire)]

/-! ## Document restore (source: `getOrCreateDocument`)

The in-memory document is reduced to the one blob the restore path applies
to the fresh `Y.Doc` (`none` = fresh empty document).  `LevelRead` is the
outcome of the Tier A read: the persistence handle may be absent
(StackBlitz / init failure), `persistence.getYDoc` may reject (caught by the
outer try/catch, which registers and returns the fresh empty doc), or it
yields a persisted doc whose encoded update is the blob — the source tests
`Y.encodeStateAsUpdate(persistedDoc).length > 0` for non-emptiness.
`restoreDocument` never throws (it catches internally), so the Firebase leg
cannot trigger the outer catch. -/

structure YDocM where
  content : Option (List Nat)
deriving DecidableEq

inductive LevelRead where
  | noPersistence
  | threw
  | got (blob : List Nat)
deriving DecidableEq

def restoreFromFirebaseOrFresh (dbConfigured readOk : Bool) (now : Nat) (docName : String)
    (docs : List (String × YDocM)) (s : BackupState) :
    List (String × YDocM) × BackupState × YDocM :=
  match restoreDocument dbConfigured readOk docName s with
  | (some blob, s1) => (mset docs docName ⟨some blob⟩, s1, ⟨some blob⟩)
  | (none, s1) =>
      (mset docs docName ⟨none⟩, ⟨mset s1.docMetadata docName ⟨now, now, 1⟩, s1.fireStore⟩, ⟨none⟩)

def getOrCreateDocument (lr : LevelRead) (dbConfigured readOk : Bool) (now : Nat)
    (docName : String) (docs : List (String × YDocM)) (s : BackupState) :
    List (String × YDocM) × BackupState × YDocM :=
  match mget docs docName with
  | some d => (docs, s, d)
  | none =>
      match lr with
      | LevelRead.threw => (mset docs docName ⟨none⟩, s, ⟨none⟩)
      | LevelRead.got blob =>
          if blob.length > 0 then (mset docs docName ⟨some blob⟩, s, ⟨some blob⟩)
          else restoreFromFirebaseOrFresh dbConfigured readOk now docName docs s
      | LevelRead.noPersistence => restoreFromFirebaseOrFresh dbConfigured readOk now docName docs s

/-! ## Inbound message handler (source: `conn.on('message', ...)`)

    try {
      const decoder = decoding.createDecoder(message)
      const messageType = decoding.readVarUint(decoder)
      switch (messageType) {
        case messageSync: ... readSyncMessage ...; if (len > 1) conn.send(...)
        case messageAwareness: ... applyAwarenessUpdate ...
        default: console.warn(...)
      }
    } catch (err) { console.error(...); doc.emit('error', [err]) }

The external y-protocols operations are parameters: `applySync` merges a
sync payload into the content replica and produces the reply frame
(`Except.error` models a decode failure thrown and caught — an empty
message makes `readVarUint` itself throw).  No error listener is registered
on the doc, so `doc.emit('error', ...)` is a no-op, and nothing in the
handler closes the connection. -/

structure RelayState where
  content : List Nat
  awareness : List (Nat × Option (List Nat))
  connOpen : Bool
deriving DecidableEq

def handleMessage
    (applySync : List Nat → List Nat → Except Unit (List Nat × List Nat))
    (applyAwareness : List Nat → List (Nat × Option (List Nat)) →
      Except Unit (List (Nat × Option (List Nat))))
    (message : List Nat) (s : RelayState) : RelayState × List (List Nat) :=
  match message with
  | [] => (s, [])
  | t :: payload =>
      if t = messageSync then
        match applySync payload s.content with
        | Except.ok (c1, reply) =>
            (⟨c1, s.awareness, s.connOpen⟩, if reply.length > 1 then [reply] else [])
        | Except.error _ => (s, [])
      else if t = messageAwareness then
        match applyAwareness payload s.awareness with
        | Except.ok a1 => (⟨s.content, a1, s.connOpen⟩, [])
        | Except.error _ => (s, [])
      else (s, [])

/-! ## Backup queue processing (source: `scheduleBackup` / `processBackupQueue`)

    scheduleBackup(docName) { this.backupQueue.add(docName); this.processBackupQueue() }
    async processBackupQueue() {
      if (this.isBackupRunning || this.backupQueue.size === 0) return
      this.isBackupRunning = true
      try { for (const docName of this.backupQueue) { ... await this.backupDocument(...) }
            this.backupQueue.clear() }
      finally { this.isBackupRunning = false } }

One `FirebaseBackupManager` instance serves the whole process.  A task is an
invocation of `processBackupQueue` that passed the guard; the guard check
and the flag assignment are one atomic step (no `await` between them).
`BTask.looping q` is a task between writes with the names `q` still to
process; `BTask.writing n q` is a task awaiting the Tier B write for `n`. -/

inductive BTask where
  | looping (pending : List String)
  | writing (docName : String) (pending : List String)
deriving DecidableEq

structure QState where
  isBackupRunning : Bool
  tasks : List BTask
deriving DecidableEq

def inFlight (ts : List BTask) : List String :=
  ts.filterMap (fun t => match t with | BTask.writing n _ => some n | _ => none)

inductive QStep : QState → QState → Prop where
  | enter (s : QState) (q : List String) (h : s.isBackupRunning = false) :
      QStep s ⟨true, BTask.looping q :: s.tasks⟩
  | enterBlocked (s : QState) (h : s.isBackupRunning = true) : QStep s s
  | startWrite (s : QState) (pre post : List BTask) (n : String) (rest : List String)
      (h : s.tasks = pre ++ BTask.looping (n :: rest) :: post) :
      QStep s ⟨s.isBackupRunning, pre ++ BTask.writing n rest :: post⟩
  | finishWrite (s : QState) (pre post : List BTask) (n : String) (rest : List String)
      (h : s.tasks = pre ++ BTask.writing n rest :: post) :
      QStep s ⟨s.isBackupRunning, pre ++ BTask.looping rest :: post⟩
  | exitQueue (s : QState) (pre post : List BTask)
      (h : s.tasks = pre ++ BTask.looping [] :: post) :
      QStep s ⟨false, pre ++ post⟩

inductive QReach : QState → Prop where
  | init : QReach ⟨false, []⟩
  | step {s s1 : QState} : QReach s → QStep s s1 → QReach s1

/-! ## Registry attach race (source: `getOrCreateDocument` check vs. `docs.set`)

    if (docs.has(docName)) { return docs.get(docName) }
    const ydoc = new Y.Doc()
    ... await persistence.getYDoc(docName) / await firebaseBackup.restoreDocument ...
    docs.set(docName, ydoc)
    return ydoc

Two connections attaching to the same name run this code concurrently; the
membership check and the `docs.set` are separated by awaited restore I/O, so
the tasks can interleave at the `await`.  Each task is at `start` (before the
check), `restoring d` (created fresh Y.Doc object `d`, awaiting restore), or
`done d` (returned doc object `d` to its connection).  `next` supplies fresh
Y.Doc object identities. -/

inductive TPC where
  | start
  | restoring (fresh : Nat)
  | done (ret : Nat)
deriving DecidableEq

structure Reg where
  docs : List (String × Nat)
  t1 : TPC
  t2 : TPC
  next : Nat
deriving DecidableEq

inductive RegStep (name : String) : Reg → Reg → Prop where
  | hit1 (s : Reg) (d : Nat) (ht : s.t1 = TPC.start) (h : mget s.docs name = some d) :
      RegStep name s ⟨s.docs, TPC.done d, s.t2, s.next⟩
  | miss1 (s : Reg) (ht : s.t1 = TPC.start) (h : mget s.docs name = none) :
      RegStep name s ⟨s.docs, TPC.restoring s.next, s.t2, s.next + 1⟩
  | set1 (s : Reg) (d : Nat) (ht : s.t1 = TPC.restoring d) :
      RegStep name s ⟨mset s.docs name d, TPC.done d, s.t2, s.next⟩
  | hit2 (s : Reg) (d : Nat) (ht : s.t2 = TPC.start) (h : mget s.docs name = some d) :
      RegStep name s ⟨s.docs, s.t1, TPC.done d, s.next⟩
  | miss2 (s : Reg) (ht : s.t2 = TPC.start) (h : mget s.docs name = none) :
      RegStep name s ⟨s.docs, s.t1, TPC.restoring s.next, s.next + 1⟩
  | set2 (s : Reg) (d : Nat) (ht : s.t2 = TPC.restoring d) :
      RegStep name s ⟨mset s.docs name d, s.t1, TPC.done d, s.next⟩

def regInit : Reg := ⟨[], TPC.start, TPC.start, 0⟩

inductive RegReach (name : String) : Reg → Prop where
  | init : RegReach name regInit
  | step {s s1 : Reg} : RegReach name s → RegStep name s s1 → RegReach name s1

/-! ## Map lemmas -/

theorem mget_mset_self {K α : Type} [DecidableEq K] (m : List (K × α)) (k : K) (v : α) :
    mget (mset m k v) k = some v := by
  induction m with
  | nil => simp [mget, mset]
  | cons p rest ih =>
      by_cases h : p.1 = k
      · simp [mget, mset, h]
      · simp [mget, mset, h, ih]

theorem mget_mset_ne {K α : Type} [DecidableEq K] (m : List (K × α)) (k k1 : K) (v : α)
    (h : k1 ≠ k) : mget (mset m k v) k1 = mget m k1 := by
  have hk : ¬ k = k1 := fun e => h e.symm
  induction m with
  | nil => simp [mget, mset, hk]
  | cons p rest ih =>
      by_cases hp : p.1 = k
      · subst hp
        simp [mget, mset, hk]
      · simp only [mset, if_neg hp, mget]
        by_cases hq : p.1 = k1
        · simp [hq]
        · simp [hq, ih]

theorem mget_mdel_self {K α : Type} [DecidableEq K] (m : List (K × α)) (k : K) :
    mget (mdel m k) k = none := by
  induction m with
  | nil => simp [mget, mdel]
  | cons p rest ih =>
      by_cases h : p.1 = k
      · simp [mdel, h, ih]
      · simp [mget, mdel, h, ih]

theorem mem_keys_mset {K α : Type} [DecidableEq K] (m : List (K × α)) (k a : K) (v : α) :
    a ∈ (mset m k v).map Prod.fst ↔ a ∈ m.map Prod.fst ∨ a = k := by
  induction m with
  | nil => simp [mset]
  | cons p rest ih =>
      by_cases h : p.1 = k
      · subst h
        simp [mset]
        tauto
      · simp [mset, h, ih]
        tauto

theorem nodup_keys_mset {K α : Type} [DecidableEq K] (m : List (K × α)) (k : K) (v : α)
    (hm : (m.map Prod.fst).Nodup) : ((mset m k v).map Prod.fst).Nodup := by
  induction m with
  | nil => simp [mset]
  | cons p rest ih =>
      rw [List.map_cons, List.nodup_cons] at hm
      by_cases h : p.1 = k
      · subst h
        simpa [mset] using hm
      · rw [mset]
        simp only [if_neg h, List.map_cons, List.nodup_cons]
        refine ⟨fun hmem => ?_, ih hm.2⟩
        rcases (mem_keys_mset rest k p.1 v).mp hmem with hin | heq
        · exact hm.1 hin
        · exact h heq

/-! ## Shared lemmas about the embedded operations -/

theorem closeHandler_no_retraction (conn : Nat) (s : DocConnState) :
    (closeHandler conn s).2 = [] ∧ (closeHandler conn s).1.awareness = s.awareness := by
  unfold closeHandler
  simp [mget_mdel_self]

theorem curVer_backup (wOk : Bool) (now : Nat) (n : String) (c : List Nat) (s : BackupState) :
    curVer (backupDocument true wOk now n c s) n = curVer s n + 1 := by
  unfold backupDocument curVer
  cases h : mget s.docMetadata n <;> cases wOk <;> simp [mget_mset_self, h]

theorem getOrCreateDocument_registered (lr : LevelRead) (db rOk : Bool) (now : Nat)
    (n : String) (docs : List (String × YDocM)) (s : BackupState) :
    mget (getOrCreateDocument lr db rOk now n docs s).1 n
      = some (getOrCreateDocument lr db rOk now n docs s).2.2 := by
  unfold getOrCreateDocument restoreFromFirebaseOrFresh
  split
  · simpa using (by assumption : mget docs n = some _)
  · split
    · simp [mget_mset_self]
    · split
      · simp [mget_mset_self]
      · split <;> simp [mget_mset_self]
    · split <;> simp [mget_mset_self]

/-! ## Claim C1 -/

/-- Claim C1: with two attached connections A (id 0) and B (id 1), when A's delta
is merged, B must receive exactly one broadcast copy and A none.  On the code, each
connection's own `messageListener` runs on the shared doc's `update` event and
excludes only its *own* connection, so B does receive exactly one copy, but A
receives its own delta echoed back once, and with three connections every
non-sender receives two copies instead of one. -/
theorem C1_sender_echo :
    copiesReceived [0, 1] 1 = 1 ∧
    copiesReceived [0, 1] 0 = 1 ∧
    copiesReceived [0, 1, 2] 1 = 2 := by
  decide

/-! ## Claim C2 -/

/-- Claim C2: on connection close, every awareness clientID attributed to the
connection should be tombstoned and the tombstone broadcast.  On the code, the
close handler runs `doc.conns.delete(conn)` *before* `doc.conns.get(conn)`, so the
controlled-ID lookup always yields `undefined`, `removeAwarenessStates` is never
invoked, the awareness table is unchanged and nothing is broadcast — shown here
both in general and on the concrete state where connection 0 controls clientID 42. -/
theorem C2_close_no_tombstone :
    (∀ (conn : Nat) (s : DocConnState),
        (closeHandler conn s).2 = [] ∧ (closeHandler conn s).1.awareness = s.awareness) ∧
    closeHandler 0 ⟨[(0, [42]), (1, [])], [(42, some [7])]⟩
      = (⟨[(1, [])], [(42, some [7])]⟩, []) := by
  exact ⟨closeHandler_no_retraction, by decide⟩

/-! ## Claim C4 -/

/-- Claim C4 counterexample: a backup attempt whose remote write fails (`writeOk =
false`, Tier B store left empty, i.e. unchanged) still increments the stored
version counter for "d" from 1 to 2, contradicting "a backup attempt whose remote
write fails does not increment the stored version counter". -/
theorem C4_failed_write_increments :
    (mget (⟨[("d", ⟨0, 0, 1⟩)], []⟩ : BackupState).docMetadata "d").map DocMeta.version
      = some 1 ∧
    (mget (backupDocument true false 5 "d" [1]
        ⟨[("d", ⟨0, 0, 1⟩)], []⟩).docMetadata "d").map DocMeta.version = some 2 ∧
    (backupDocument true false 5 "d" [1] ⟨[("d", ⟨0, 0, 1⟩)], []⟩).fireStore = [] := by
  decide

/-- Claim C4 (amended): across any run of Tier B backup attempts for a document,
the in-memory version counter is incremented exactly once per *attempt* — before
the remote write and regardless of its outcome — and the versions carried by the
records actually written to Tier B are strictly increasing (so the Tier B counter
never decreases, but skips a value for every failed attempt). -/
theorem C4_version_monotonic (n : String) (s : BackupState) (as : List Attempt) :
    curVer (runBackups n s as) n = curVer s n + as.length ∧
    (writtenVersions n s as).Pairwise (· < ·) ∧
    ∀ v ∈ writtenVersions n s as, curVer s n < v := by
  induction as generalizing s with
  | nil => simp [runBackups, writtenVersions]
  | cons a as ih =>
      obtain ⟨aw, anow, acontent⟩ := a
      obtain ⟨ih1, ih2, ih3⟩ := ih (backupDocument true aw anow n acontent s)
      have hstep := curVer_backup aw anow n acontent s
      refine ⟨?_, ?_, ?_⟩
      · rw [runBackups, ih1, hstep]
        simp only [List.length_cons]
        omega
      · cases aw
        · exact ih2
        · show List.Pairwise (· < ·)
            ((curVer s n + 1) :: writtenVersions n (backupDocument true true anow n acontent s) as)
          rw [List.pairwise_cons]
          refine ⟨fun y hy => ?_, ih2⟩
          have hlt := ih3 y hy
          omega
      · intro v hv
        cases aw
        · have hv2 : v ∈ writtenVersions n (backupDocument true false anow n acontent s) as := hv
          have := ih3 v hv2
          omega
        · have hv2 : v ∈ (curVer s n + 1)
              :: writtenVersions n (backupDocument true true anow n acontent s) as := hv
          rcases List.mem_cons.mp hv2 with rfl | hv3
          · omega
          · have := ih3 v hv3
            omega

/-- Witness for `C4_version_monotonic`: the run `[failed attempt, completed
attempt]` on an empty state writes exactly the version 3 record, and 3 is above
the initial counter value 1. -/
theorem C4_version_monotonic_witness :
    3 ∈ writtenVersions "d" ⟨[], []⟩ [⟨false, 1, [1]⟩, ⟨true, 2, [2]⟩] ∧
    curVer ⟨[], []⟩ "d" < 3 :=
  ⟨by decide,
   (C4_version_monotonic "d" ⟨[], []⟩ [⟨false, 1, [1]⟩, ⟨true, 2, [2]⟩]).2.2 3 (by decide)⟩

/-! ## Claim C5 -/

/-- Claim C5 counterexample: the first completed backup of "d" stores the record
`⟨[1], ⟨1,1,2⟩, 1⟩`; after the second completed backup, that earlier record is no
longer anywhere in the Tier B store — `docRef.set` on the fixed path
`yjs-documents/d` overwrote it — contradicting "all Tier B records written earlier
for that document are unchanged and still retrievable". -/
theorem C5_prior_record_lost :
    mget (backupDocument true true 1 "d" [1] ⟨[], []⟩).fireStore "d"
      = some ⟨[1], ⟨1, 1, 2⟩, 1⟩ ∧
    mget (backupDocument true true 2 "d" [2]
        (backupDocument true true 1 "d" [1] ⟨[], []⟩)).fireStore "d"
      = some ⟨[2], ⟨1, 2, 3⟩, 2⟩ ∧
    (⟨[1], ⟨1, 1, 2⟩, 1⟩ : FireRecord) ∉
      ((backupDocument true true 2 "d" [2]
        (backupDocument true true 1 "d" [1] ⟨[], []⟩)).fireStore.map Prod.snd) := by
  decide

/-- Claim C5 (amended): every completed Tier B backup write stores the snapshot at
the single key for the document's name, *overwriting* the prior record there; after
the write, the store holds exactly the newly written record for that name (only the
most recent snapshot is retrievable), while records of other documents and other
documents' metadata are untouched. -/
theorem C5_backup_overwrites_single_record
    (now : Nat) (n m : String) (c : List Nat) (s : BackupState) (h : m ≠ n) :
    mget (backupDocument true true now n c s).fireStore n
      = some ⟨c, ⟨((mget s.docMetadata n).getD ⟨now, now, 1⟩).created, now,
                  ((mget s.docMetadata n).getD ⟨now, now, 1⟩).version + 1⟩, now⟩ ∧
    mget (backupDocument true true now n c s).fireStore m = mget s.fireStore m ∧
    mget (backupDocument true true now n c s).docMetadata m = mget s.docMetadata m := by
  unfold backupDocument
  simp [mget_mset_self, mget_mset_ne _ _ _ _ h]

/-- Witness for `C5_backup_overwrites_single_record` at `now = 1`, `n = "d"`,
`m = "e"`. -/
theorem C5_backup_overwrites_single_record_witness :
    "e" ≠ "d" ∧
    mget (backupDocument true true 1 "d" [1] ⟨[], []⟩).fireStore "d"
      = some ⟨[1], ⟨1, 1, 2⟩, 1⟩ ∧
    mget (backupDocument true true 1 "d" [1] ⟨[], []⟩).fireStore "e"
      = mget (⟨[], []⟩ : BackupState).fireStore "e" :=
  ⟨by decide,
   (C5_backup_overwrites_single_record 1 "d" "e" [1] ⟨[], []⟩ (by decide)).1,
   (C5_backup_overwrites_single_record 1 "d" "e" [1] ⟨[], []⟩ (by decide)).2.1⟩

/-! ## Claim C10 -/

/-- Claim C10: with no Firebase database handle configured, `backupDocument`
returns without writing anything and without touching the metadata map (the
version counter never moves), `restoreDocument` returns `null` without error, and
attach (`getOrCreateDocument`) still succeeds: it always returns a document that
is registered under the requested name. -/
theorem C10_no_database_noop :
    ∀ (writeOk readOk : Bool) (now : Nat) (n : String) (c : List Nat) (s : BackupState)
      (lr : LevelRead) (docs : List (String × YDocM)),
      backupDocument false writeOk now n c s = s ∧
      restoreDocument false readOk n s = (none, s) ∧
      mget (getOrCreateDocument lr false readOk now n docs s).1 n
        = some (getOrCreateDocument lr false readOk now n docs s).2.2 := by
  intro writeOk readOk now n c s lr docs
  refine ⟨by simp [backupDocument], by simp [restoreDocument],
    getOrCreateDocument_registered lr false readOk now n docs s⟩

/-! ## Claim C6 -/

theorem fireTimer_skip (t d a c : Nat) (w : List (Nat × Nat)) (h : d ≠ t) :
    fireTimer t ⟨some d, a, c, w⟩ = ⟨some d, a, c, w⟩ := by
  simp only [fireTimer]
  exact if_neg h

theorem fireTimer_hit (d a c : Nat) (w : List (Nat × Nat)) :
    fireTimer d ⟨some d, a, c, w⟩ = ⟨none, a, c, w ++ [(d, c)]⟩ := by
  simp [fireTimer]

/-- Claim C6 counterexample: a second content change arriving while a backup is
already scheduled *does* arm a new timer — `scheduleFirebaseBackup` runs
`clearTimeout` plus a fresh `setTimeout` on every change, so after changes at 0 and
2000 two timers have been armed (not one) and the pending deadline has moved from
30000 to 32000 — contradicting "additional changes arriving while a backup is
already Scheduled are coalesced without arming a new timer". -/
theorem C6_timer_rearmed :
    (runTimeline 30000 schedInit [(0, SEvent.change)]).backupTimer = some 30000 ∧
    (runTimeline 30000 schedInit [(0, SEvent.change), (2000, SEvent.change)]).backupTimer
      = some 32000 ∧
    (runTimeline 30000 schedInit [(0, SEvent.change), (2000, SEvent.change)]).armedCount = 2 ∧
    (2 : Nat) ≠ 1 := by
  decide

/-- Claim C6 (amended): a content change while idle arms a timer for the 30000 ms
backup interval, and every further content change while one is scheduled clears
the pending timer and arms a new one (debounce); the changes are still coalesced
into a single unit of work: five content changes within 2 seconds produce exactly
one Tier B write, at the deadline armed by the last change (hence within
interval + 2s of the first change), and the write captures the document state
current at write time — the cumulative effect of all five changes. -/
theorem C6_five_changes_one_write (t1 t2 t3 t4 t5 : Nat)
    (h12 : t1 < t2) (h23 : t2 < t3) (h34 : t3 < t4) (h45 : t4 < t5)
    (hwin : t5 ≤ t1 + 2000) :
    (runTimeline 30000 schedInit (fiveChangeTimeline t1 t2 t3 t4 t5)).writes
      = [(t5 + 30000, 5)] ∧
    t5 + 30000 ≤ t1 + 2000 + 30000 ∧
    (runTimeline 30000 schedInit (fiveChangeTimeline t1 t2 t3 t4 t5)).armedCount = 5 := by
  have hchain : runTimeline 30000 schedInit (fiveChangeTimeline t1 t2 t3 t4 t5)
      = fireTimer (t5 + 30000) (fireTimer (t4 + 30000) (fireTimer (t3 + 30000)
          (fireTimer (t2 + 30000) (fireTimer (t1 + 30000)
            (⟨some (t5 + 30000), 5, 5, []⟩ : SchedulerState))))) := rfl
  rw [hchain, fireTimer_skip (t1 + 30000) (t5 + 30000) 5 5 [] (by omega),
      fireTimer_skip (t2 + 30000) (t5 + 30000) 5 5 [] (by omega),
      fireTimer_skip (t3 + 30000) (t5 + 30000) 5 5 [] (by omega),
      fireTimer_skip (t4 + 30000) (t5 + 30000) 5 5 [] (by omega),
      fireTimer_hit (t5 + 30000) 5 5 []]
  exact ⟨rfl, by omega, rfl⟩

/-- Witness for `C6_five_changes_one_write`: changes at 0, 500, 1000, 1500, 2000. -/
theorem C6_five_changes_one_write_witness :
    (0 : Nat) < 500 ∧ (2000 : Nat) ≤ 0 + 2000 ∧
    (runTimeline 30000 schedInit (fiveChangeTimeline 0 500 1000 1500 2000)).writes
      = [(32000, 5)] :=
  ⟨by decide, by decide,
   (C6_five_changes_one_write 0 500 1000 1500 2000 (by decide) (by decide) (by decide)
     (by decide) (by decide)).1⟩

/-! ## Claim C7 -/

/-- Claim C7: `getOrCreateDocument` restores in strict priority order — a document
already in memory is returned as is; otherwise a non-empty Tier A (LevelDB)
snapshot wins and Tier B is not consulted; otherwise the Tier B (Firebase)
snapshot is applied; if neither exists, a fresh empty document is created with
metadata `{version: 1, createdAt: now}`; a Tier A read failure degrades to a fresh
empty document; and in every case the returned document is registered under the
requested name — the attach never rejects. -/
theorem C7_attach_restore_priority (lr : LevelRead) (db rOk : Bool) (now : Nat)
    (n : String) (docs : List (String × YDocM)) (s : BackupState) :
    (∀ d0, mget docs n = some d0 →
        getOrCreateDocument lr db rOk now n docs s = (docs, s, d0)) ∧
    (mget docs n = none → ∀ blob, lr = LevelRead.got blob → 0 < blob.length →
        getOrCreateDocument lr db rOk now n docs s
          = (mset docs n ⟨some blob⟩, s, ⟨some blob⟩)) ∧
    (mget docs n = none → (lr = LevelRead.got [] ∨ lr = LevelRead.noPersistence) →
        ∀ blob s1, restoreDocument db rOk n s = (some blob, s1) →
        getOrCreateDocument lr db rOk now n docs s
          = (mset docs n ⟨some blob⟩, s1, ⟨some blob⟩)) ∧
    (mget docs n = none → (lr = LevelRead.got [] ∨ lr = LevelRead.noPersistence) →
        ∀ s1, restoreDocument db rOk n s = (none, s1) →
        getOrCreateDocument lr db rOk now n docs s
          = (mset docs n ⟨none⟩, ⟨mset s1.docMetadata n ⟨now, now, 1⟩, s1.fireStore⟩, ⟨none⟩)) ∧
    (mget docs n = none → lr = LevelRead.threw →
        getOrCreateDocument lr db rOk now n docs s = (mset docs n ⟨none⟩, s, ⟨none⟩)) ∧
    mget (getOrCreateDocument lr db rOk now n docs s).1 n
      = some (getOrCreateDocument lr db rOk now n docs s).2.2 := by
  refine ⟨?_, ?_, ?_, ?_, ?_, getOrCreateDocument_registered lr db rOk now n docs s⟩
  · intro d0 h
    simp [getOrCreateDocument, h]
  · intro h blob hlr hb
    subst hlr
    simp [getOrCreateDocument, h, hb]
  · intro h hlr blob s1 hr
    rcases hlr with hlr | hlr <;> subst hlr <;>
      simp [getOrCreateDocument, restoreFromFirebaseOrFresh, h, hr]
  · intro h hlr s1 hr
    rcases hlr with hlr | hlr <;> subst hlr <;>
      simp [getOrCreateDocument, restoreFromFirebaseOrFresh, h, hr]
  · intro h hlr
    subst hlr
    simp [getOrCreateDocument, h]

/-- Witness for `C7_attach_restore_priority`: a non-empty Tier A snapshot is used
as is; with Tier A empty, the Tier B record for "d" is applied and its metadata
adopted; with both tiers empty, a fresh empty document with version-1 metadata is
created.  All three start from an unregistered name, so each result is also
registered. -/
theorem C7_attach_restore_priority_witness :
    getOrCreateDocument (LevelRead.got [7]) true true 9 "d" [] ⟨[], []⟩
      = ([("d", ⟨some [7]⟩)], ⟨[], []⟩, ⟨some [7]⟩) ∧
    getOrCreateDocument LevelRead.noPersistence true true 9 "d" []
        ⟨[], [("d", ⟨[3, 4], ⟨1, 1, 2⟩, 1⟩)]⟩
      = ([("d", ⟨some [3, 4]⟩)],
         ⟨[("d", ⟨1, 1, 2⟩)], [("d", ⟨[3, 4], ⟨1, 1, 2⟩, 1⟩)]⟩, ⟨some [3, 4]⟩) ∧
    getOrCreateDocument (LevelRead.got []) true true 9 "d" [] ⟨[], []⟩
      = ([("d", ⟨none⟩)], ⟨[("d", ⟨9, 9, 1⟩)], []⟩, ⟨none⟩) :=
  ⟨(C7_attach_restore_priority (LevelRead.got [7]) true true 9 "d" [] ⟨[], []⟩).2.1
      rfl [7] rfl (by decide),
   (C7_attach_restore_priority LevelRead.noPersistence true true 9 "d" []
      ⟨[], [("d", ⟨[3, 4], ⟨1, 1, 2⟩, 1⟩)]⟩).2.2.1 rfl (Or.inr rfl) [3, 4]
      ⟨[("d", ⟨1, 1, 2⟩)], [("d", ⟨[3, 4], ⟨1, 1, 2⟩, 1⟩)]⟩ (by decide),
   (C7_attach_restore_priority (LevelRead.got []) true true 9 "d" [] ⟨[], []⟩).2.2.2.1
      rfl (Or.inl rfl) ⟨[], []⟩ (by decide)⟩

/-! ## Claim C8 -/

/-- Claim C8: an inbound message that is undecodable (an empty frame makes
`readVarUint` throw; a sync or awareness payload whose decode throws is caught by
the handler's catch block) or that carries an unknown discriminant byte is
dropped: no response is sent, the document's content and awareness state are
untouched, and the connection stays open (the full relay state, `connOpen`
included, is returned unchanged). -/
theorem C8_bad_message_dropped
    (applySync : List Nat → List Nat → Except Unit (List Nat × List Nat))
    (applyAwareness : List Nat → List (Nat × Option (List Nat)) →
      Except Unit (List (Nat × Option (List Nat))))
    (message : List Nat) (s : RelayState) :
    (message = [] → handleMessage applySync applyAwareness message s = (s, [])) ∧
    (∀ t payload, message = t :: payload → t ≠ messageSync → t ≠ messageAwareness →
        handleMessage applySync applyAwareness message s = (s, [])) ∧
    (∀ payload, message = messageSync :: payload →
        applySync payload s.content = Except.error () →
        handleMessage applySync applyAwareness message s = (s, [])) ∧
    (∀ payload, message = messageAwareness :: payload →
        applyAwareness payload s.awareness = Except.error () →
        handleMessage applySync applyAwareness message s = (s, [])) := by
  refine ⟨?_, ?_, ?_, ?_⟩
  · rintro rfl
    rfl
  · rintro t payload rfl h0 h1
    simp [handleMessage, h0, h1]
  · rintro payload rfl herr
    simp [handleMessage, messageSync, herr]
  · rintro payload rfl herr
    simp [handleMessage, messageSync, messageAwareness, herr]

/-- Witness for `C8_bad_message_dropped`: discriminant 7 is unknown, and a sync
frame whose payload decode throws is dropped; in both cases the state (content,
awareness, open connection) is unchanged and nothing is sent. -/
theorem C8_bad_message_dropped_witness :
    ((7 : Nat) ≠ messageSync) ∧
    handleMessage (fun _ c => Except.ok (c, [])) (fun _ a => Except.ok a) [7, 9]
        ⟨[1], [(42, some [2])], true⟩ = (⟨[1], [(42, some [2])], true⟩, []) ∧
    handleMessage (fun _ _ => Except.error ()) (fun _ a => Except.ok a) [0, 9]
        ⟨[1], [(42, some [2])], true⟩ = (⟨[1], [(42, some [2])], true⟩, []) :=
  ⟨by decide,
   (C8_bad_message_dropped (fun _ c => Except.ok (c, [])) (fun _ a => Except.ok a)
      [7, 9] ⟨[1], [(42, some [2])], true⟩).2.1 7 [9] rfl (by decide) (by decide),
   (C8_bad_message_dropped (fun _ _ => Except.error ()) (fun _ a => Except.ok a)
      [0, 9] ⟨[1], [(42, some [2])], true⟩).2.2.1 [9] rfl rfl⟩

/-! ## Claim C3 -/

/-- Claim C3 counterexample: two overlapping attaches for the absent name "demo"
both pass the `docs.has` check before either reaches `docs.set` (the check and the
set are separated by awaited restore I/O), so task 1 returns document object 0 and
task 2 returns document object 1 — two distinct in-memory Document objects both
serving connections, with only object 1 left in the registry. -/
theorem C3_double_create :
    RegReach "demo" ⟨[("demo", 1)], TPC.done 0, TPC.done 1, 2⟩ ∧
    (0 : Nat) ≠ 1 ∧
    mget ([("demo", 1)] : List (String × Nat)) "demo" = some 1 := by
  refine ⟨?_, by decide, by decide⟩
  exact RegReach.step (RegReach.step (RegReach.step (RegReach.step RegReach.init
    (RegStep.miss1 regInit rfl rfl))
    (RegStep.miss2 ⟨[], TPC.restoring 0, TPC.start, 1⟩ rfl rfl))
    (RegStep.set1 ⟨[], TPC.restoring 0, TPC.restoring 1, 2⟩ 0 rfl))
    (RegStep.set2 ⟨[("demo", 0)], TPC.done 0, TPC.restoring 1, 2⟩ 1 rfl)

/-- Claim C3 (amended): the registry map itself never holds more than one entry
per document name in any reachable state — `docs.set` keeps keys unique — but the
overlapping-attach guarantee does not hold: concurrent attaches for an absent name
can leave two distinct Document objects serving connections (see the
counterexample), the later registration silently displacing the earlier one. -/
theorem C3_registry_single_entry (name : String) (s : Reg) (h : RegReach name s) :
    (s.docs.map Prod.fst).Nodup := by
  induction h with
  | init => simp [regInit]
  | step hr hs ih =>
      cases hs with
      | hit1 d ht hm => exact ih
      | miss1 ht hm => exact ih
      | set1 d ht => exact nodup_keys_mset _ name d ih
      | hit2 d ht hm => exact ih
      | miss2 ht hm => exact ih
      | set2 d ht => exact nodup_keys_mset _ name d ih

/-- Witness for `C3_registry_single_entry`: a completed single attach of "demo". -/
theorem C3_registry_single_entry_witness :
    RegReach "demo" ⟨[("demo", 0)], TPC.done 0, TPC.start, 1⟩ ∧
    (([("demo", 0)] : List (String × Nat)).map Prod.fst).Nodup := by
  have hreach : RegReach "demo" ⟨[("demo", 0)], TPC.done 0, TPC.start, 1⟩ :=
    RegReach.step (RegReach.step RegReach.init (RegStep.miss1 regInit rfl rfl))
      (RegStep.set1 ⟨[], TPC.restoring 0, TPC.start, 1⟩ 0 rfl)
  exact ⟨hreach, C3_registry_single_entry "demo" _ hreach⟩

/-! ## Claim C9 -/

theorem QReach_invariant (s : QState) (h : QReach s) :
    s.tasks.length ≤ 1 ∧ (s.isBackupRunning = false → s.tasks = []) := by
  induction h with
  | init => exact ⟨by simp, fun _ => rfl⟩
  | step hr hs ih =>
      obtain ⟨ih1, ih2⟩ := ih
      cases hs with
      | enter q hflag =>
          have he := ih2 hflag
          refine ⟨by simp [he], ?_⟩
          intro hc
          simp at hc
      | enterBlocked hflag => exact ⟨ih1, ih2⟩
      | startWrite pre post n rest htasks =>
          rw [htasks] at ih1
          simp only [List.length_append, List.length_cons] at ih1
          refine ⟨by simp only [List.length_append, List.length_cons]; omega, ?_⟩
          intro hflag
          have he := ih2 hflag
          rw [htasks] at he
          exact absurd he (by simp)
      | finishWrite pre post n rest htasks =>
          rw [htasks] at ih1
          simp only [List.length_append, List.length_cons] at ih1
          refine ⟨by simp only [List.length_append, List.length_cons]; omega, ?_⟩
          intro hflag
          have he := ih2 hflag
          rw [htasks] at he
          exact absurd he (by simp)
      | exitQueue pre post htasks =>
          rw [htasks] at ih1
          simp only [List.length_append, List.length_cons] at ih1
          have hpre : pre = [] := List.length_eq_zero.mp (by omega)
          have hpost : post = [] := List.length_eq_zero.mp (by omega)
          subst hpre
          subst hpost
          exact ⟨by simp, fun _ => rfl⟩

/-- Claim C9: the single `FirebaseBackupManager` instance serializes Tier B
backup writes globally through its one `isBackupRunning` flag: in every reachable
state of the queue-processing system, at most one backup write is in flight across
the whole process — in particular backups of two different documents never proceed
concurrently — and whenever any processing task exists at all, the running flag is
set. -/
theorem C9_single_backup_in_flight (s : QState) (h : QReach s) :
    (inFlight s.tasks).length ≤ 1 ∧ (s.tasks ≠ [] → s.isBackupRunning = true) := by
  obtain ⟨h1, h2⟩ := QReach_invariant s h
  refine ⟨?_, ?_⟩
  · calc (inFlight s.tasks).length ≤ s.tasks.length := List.length_filterMap_le _ _
      _ ≤ 1 := h1
  · intro hne
    cases hflag : s.isBackupRunning
    · exact absurd (h2 hflag) hne
    · rfl

/-- Witness for `C9_single_backup_in_flight`: the reachable state in which the
write for "a" is in flight while "b" is still queued. -/
theorem C9_single_backup_in_flight_witness :
    QReach ⟨true, [BTask.writing "a" ["b"]]⟩ ∧
    (inFlight [BTask.writing "a" ["b"]]).length ≤ 1 := by
  have hreach : QReach ⟨true, [BTask.writing "a" ["b"]]⟩ :=
    QReach.step (QReach.step QReach.init (QStep.enter ⟨false, []⟩ ["a", "b"] rfl))
      (QStep.startWrite ⟨true, [BTask.looping ["a", "b"]]⟩ [] [] "a" ["b"] rfl)
  exact ⟨hreach, (C9_single_backup_in_flight _ hreach).1⟩
